import Mathlib

/-!
Verification of the vue-ketting resource-state synchronization hooks.

This file gives a shallow embedding of the hooks in
`src/hooks/use-resolve-resource.ts`, `src/hooks/use-read-resource.ts`,
`src/hooks/use-resource.ts` and `src/hooks/use-paged-collection.ts`
(the refactored variants of the repository), together with theorems about
the embedded definitions.

Modelling conventions:
* URIs are natural numbers; payloads are natural numbers; error values are
  strings.  Ketting `Resource` handles carry identity by URI.
* A `State` snapshot (`RState`) carries its uri, data payload, link list and
  a `shared` flag.  `shared = true` marks the very object held by the
  external ketting cache; `State.clone()` returns a fresh object, modelled
  by `shared := false`.  This encodes the object-identity distinction
  between "the cache's own object" and "a clone of it".
* Vue reactivity: the hook's `watch`ers fire after a cell assignment
  settles.  Every event-step function below inlines, in registration
  order, exactly the assignments the source performs plus the watcher
  bodies those assignments trigger (the `watch(error)` / `watch(resourceState)`
  loading-reconciliation watchers of use-read-resource).
* Asynchronous completions (GET / refresh results, promise resolution,
  submit outcomes) are delivered as explicit events; ketting's
  `Resource.get` on an uncached resource performs a refresh, which stores
  the fetched state in the client cache and emits an `update` event to
  subscribed listeners - `netOk` models that completion.
-/

namespace VueKetting

/-- A ketting `Resource` handle.  Identity is carried by the URI. -/
structure Resource where
  uri : Nat
deriving DecidableEq

/-- A ketting `State` snapshot: uri, typed payload, links, and a flag
recording whether this very object is the one held by the external cache
(`shared = true`).  `clone` produces a non-shared copy. -/
structure RState where
  uri : Nat
  data : Nat
  links : List (String × Nat)
  shared : Bool
deriving DecidableEq

/-- `State.clone()`: a fresh copy, no longer the cache's own object. -/
def RState.clone (s : RState) : RState :=
  { s with shared := false }

/-- `state.links.has(rel)`. -/
def RState.linkHas (s : RState) (rel : String) : Bool :=
  s.links.any (fun l => l.1 = rel)

/-- `state.followAll(rel)`: resource handles for every link of relation `rel`,
in link order. -/
def RState.followAll (s : RState) (rel : String) : List Resource :=
  (s.links.filter (fun l => l.1 = rel)).map (fun l => Resource.mk l.2)

/-- `state.follow(rel)`: handle for the first link of relation `rel`;
ketting raises `LinkNotFound` when the relation is absent, modelled as
`Except.error`. -/
def RState.follow (s : RState) (rel : String) : Except String Resource :=
  match s.links.find? (fun l => l.1 = rel) with
  | some l => Except.ok (Resource.mk l.2)
  | none => Except.error "LinkNotFound"

/-- The client's URI-keyed cache, as an association list (most recent
entry first, the way repeated `updateCache` calls shadow older entries). -/
abbrev Cache := List (Nat × RState)

/-- `cache.get(uri)`. -/
def cacheGet (c : Cache) (u : Nat) : Option RState :=
  (c.find? (fun e => e.1 = u)).map (fun e => e.2)

/-- Store a state under a uri (`updateCache` / refresh completion). -/
def cacheSet (c : Cache) (u : Nat) (s : RState) : Cache :=
  (u, s) :: c

/-- The `mode` option of useResource: `'PUT' | 'POST'`. -/
inductive Mode
  | PUT
  | POST
deriving DecidableEq

/-- The options consumed by the embedded read machine: the original `mode`
option (the watchers of use-read-resource consult `options.mode`, never the
mutable `modeVal` cell), the processed `initialState`, and `refreshOnStale`. -/
structure HOpts where
  modeOpt : Mode
  initialState : Option RState
  refreshOnStale : Bool
deriving DecidableEq

/-- The reactive cells and bookkeeping of one useResource instance:
the cells of useReadResource (`resource`, `resourceState`, `loading`,
`error`), the attached update/stale listener (`subscribed`), the shared
client cache, the mutable `modeVal` cell of useResource, and logs of the
network operations issued (GET requests, refresh calls, PUT and POST
submissions). -/
structure HState where
  resource : Option Resource
  resourceState : Option RState
  loading : Bool
  error : Option String
  subscribed : Option Resource
  cache : Cache
  modeVal : Mode
  getLog : List Nat
  refreshLog : List Nat
  putLog : List (Nat × RState)
  postLog : List (Nat × RState)
deriving DecidableEq

/-- Initial state of the hook instance (component setup):
`useResourceState` seeds `resourceState` from `options.initialState`
(the `resource instanceof Resource` cache branch in that helper is dead
code - its argument is a Vue ref, never a `Resource` - so the seed is the
initial state alone) and `loading` starts as "no seed present". -/
def hinit (o : HOpts) (c : Cache) : HState :=
  { resource := none
    resourceState := o.initialState
    loading := o.initialState.isNone
    error := none
    subscribed := none
    cache := c
    modeVal := o.modeOpt
    getLog := []
    refreshLog := []
    putLog := []
    postLog := [] }

/-- Assign the `resourceState` cell; the `watch(resourceState)` watcher of
use-read-resource clears `loading` whenever a state value arrives. -/
def setRS (σ : HState) (v : Option RState) : HState :=
  { σ with resourceState := v, loading := if v.isSome then false else σ.loading }

/-- Assign the `error` cell; the `watch(error)` watcher of use-read-resource
clears `loading` whenever an error arrives. -/
def setErr (σ : HState) (e : String) : HState :=
  { σ with error := some e, loading := false }

/-- Completion of a fetch (GET via refresh, stale refresh) or an external
update: ketting stores the state in the client cache and emits `update`;
if this instance's listener is attached to that handle, `onUpdate` runs:
`resourceState.value = newState.clone()`. -/
def deliver (σ : HState) (r : Resource) (s : RState) : HState :=
  let cached : RState := { s with shared := true }
  let σ₁ : HState := { σ with cache := cacheSet σ.cache r.uri cached }
  if σ₁.subscribed = some r then setRS σ₁ (some cached.clone) else σ₁

/-- The `resource` cell is assigned (resolver completion, or
`resource.value = ...` from submit / loadNextPage).  Runs the two
`watch(resource)` effects of use-read-resource in registration order:

1. the subscription effect: the previous listener pair is detached
   (`onInvalidate` cleanup), and a new pair is attached unless the value is
   absent or `options.mode === 'POST'`;
2. the fetch effect: skipped when the value is absent or
   `options.mode === 'POST'`; skipped when the current resourceState
   already bears the handle's uri; otherwise a cache hit adopts the cached
   object as-is, and a cache miss clears the state cell, sets `loading`,
   and issues a GET (whose completion arrives later as a `netOk` /
   `netFail` event). -/
def resolvedStep (o : HOpts) (σ : HState) (rv : Option Resource) : HState :=
  let σ₁ : HState :=
    { σ with
      resource := rv
      subscribed := match rv with
        | none => none
        | some r => if o.modeOpt = Mode.POST then none else some r }
  match rv with
  | none => σ₁
  | some r =>
    if o.modeOpt = Mode.POST then σ₁
    else
      match σ₁.resourceState with
      | some st =>
        if st.uri = r.uri then σ₁
        else
          match cacheGet σ₁.cache r.uri with
          | some cs => setRS σ₁ (some cs)
          | none =>
            { setRS σ₁ none with loading := true, getLog := r.uri :: σ₁.getLog }
      | none =>
        match cacheGet σ₁.cache r.uri with
        | some cs => setRS σ₁ (some cs)
        | none =>
          { setRS σ₁ none with loading := true, getLog := r.uri :: σ₁.getLog }

/-- A `stale` event on handle `r`: the `onStale` listener runs only while
attached; it triggers `val.refresh()` when `options.refreshOnStale` is set
(the refresh outcome arrives later as a `netOk` / `netFail` event). -/
def staleStep (o : HOpts) (σ : HState) (r : Resource) : HState :=
  if σ.subscribed = some r ∧ o.refreshOnStale then
    { σ with refreshLog := r.uri :: σ.refreshLog }
  else σ

/-- `submit()` of useResource, with the network outcome supplied:
precondition guard, then `postFollow` (POST mode: log the POST, assign the
created handle to the `resource` cell - which re-runs the resource
watchers - and flip `modeVal` to PUT) or `put` (PUT mode).  A rejected
network call propagates to the caller as `Except.error`. -/
def submitRun (o : HOpts) (σ : HState) (out : Except String Resource) :
    Except String HState :=
  match σ.resourceState, σ.resource with
  | some st, some r =>
    if σ.modeVal = Mode.POST then
      match out with
      | Except.ok newR =>
        let σ₁ : HState := { σ with postLog := (r.uri, st) :: σ.postLog }
        let σ₂ := resolvedStep o σ₁ (some newR)
        Except.ok { σ₂ with modeVal := Mode.PUT }
      | Except.error e => Except.error e
    else
      match out with
      | Except.ok _ => Except.ok { σ with putLog := (r.uri, st) :: σ.putLog }
      | Except.error e => Except.error e
  | _, _ => Except.error "Too early to call submit"

/-- `setData(newData)` of useResource: precondition guard on both the
current state and the resolved resource; mutates the payload in place on
the current snapshot (no watcher fires); in PUT mode pushes the snapshot
into the client cache via `updateCache` (which notifies this instance's
own `update` listener, when attached); in POST mode re-assigns the same
object to the local cell. -/
def setDataRun (σ : HState) (d : Nat) : Except String HState :=
  match σ.resourceState, σ.resource with
  | some st, some r =>
    let st' : RState := { st with data := d }
    let σ₁ : HState := { σ with resourceState := some st' }
    if σ₁.modeVal = Mode.PUT then Except.ok (deliver σ₁ r st')
    else Except.ok σ₁
  | _, _ => Except.error "Too early to call setData"

/-- `setResourceState(newState)` of useResource: the guard checks only the
resolved resource; PUT mode routes through `updateCache`; POST mode stores
a clone in the local cell (the inner helper). -/
def setResourceStateRun (σ : HState) (s : RState) : Except String HState :=
  match σ.resource with
  | some r =>
    if σ.modeVal = Mode.PUT then Except.ok (deliver σ r s)
    else Except.ok (setRS σ (some s.clone))
  | none => Except.error "Too early to call setResourceState"

/-- The trigger events of one hook instance: resolver/assignment of the
`resource` cell, completion of a network fetch or refresh (success stores
into the cache and notifies; failure lands in the rejection handler, which
sets the `error` cell), an external pushed `update`, a `stale` signal, and
the three mutation-facade calls (a thrown precondition or submit error
leaves the instance state unchanged - the throw happens before any cell
write, and the caller observes the exception). -/
inductive HEvent
  | resolved (rv : Option Resource)
  | netOk (r : Resource) (s : RState)
  | netFail (e : String)
  | updateEvt (r : Resource) (s : RState)
  | staleEvt (r : Resource)
  | opSubmit (out : Except String Resource)
  | opSetData (d : Nat)
  | opSetResourceState (s : RState)

/-- One settled step of the hook instance. -/
def hstep (o : HOpts) (σ : HState) (ev : HEvent) : HState :=
  match ev with
  | HEvent.resolved rv => resolvedStep o σ rv
  | HEvent.netOk r s => deliver σ r s
  | HEvent.netFail e => setErr σ e
  | HEvent.updateEvt r s => deliver σ r s
  | HEvent.staleEvt r => staleStep o σ r
  | HEvent.opSubmit out =>
    match submitRun o σ out with
    | Except.ok σ' => σ'
    | Except.error _ => σ
  | HEvent.opSetData d =>
    match setDataRun σ d with
    | Except.ok σ' => σ'
    | Except.error _ => σ
  | HEvent.opSetResourceState s =>
    match setResourceStateRun σ s with
    | Except.ok σ' => σ'
    | Except.error _ => σ

/-- Run a sequence of trigger events. -/
def hexec (o : HOpts) (σ : HState) (tr : List HEvent) : HState :=
  tr.foldl (hstep o) σ

/-! ## usePagedCollection (src/hooks/use-paged-collection.ts) -/

/-- The cells added by usePagedCollection on top of useReadResource: the
accumulated `items` array and a count of the `console.warn` diagnostics
emitted by `loadNextPage`. -/
structure PState where
  h : HState
  items : List Resource
  warns : Nat
deriving DecidableEq

/-- usePagedCollection calls useReadResource with no `mode` (hence not
POST, embedded as PUT), no initial state, and the caller's
`refreshOnStale`. -/
def pagedOpts (refreshOnStale : Bool) : HOpts :=
  { modeOpt := Mode.PUT, initialState := none, refreshOnStale := refreshOnStale }

/-- Initial paged-collection state: `items` starts as an empty array. -/
def pinit (refreshOnStale : Bool) (c : Cache) : PState :=
  { h := hinit (pagedOpts refreshOnStale) c, items := [], warns := 0 }

/-- The `watch(resourceState)` effect of usePagedCollection: whenever the
state cell settles on a new value, append `val.followAll(rel)` to `items`
(nothing is appended while the cell is empty). -/
def itemsDelta (rel : String) (old new : HState) : List Resource :=
  if new.resourceState = old.resourceState then []
  else
    match new.resourceState with
    | some v => v.followAll rel
    | none => []

/-- `hasNextPage`: the current state has a `next` link. -/
def pHasNextPage (σ : PState) : Bool :=
  match σ.h.resourceState with
  | some v => v.linkHas "next"
  | none => false

/-- One settled read-machine event inside the paged collection, with the
items watcher applied to the net state change. -/
def pstepEvt (refreshOnStale : Bool) (rel : String) (σ : PState) (ev : HEvent) : PState :=
  let h' := hstep (pagedOpts refreshOnStale) σ.h ev
  { σ with h := h', items := σ.items ++ itemsDelta rel σ.h h' }

/-- `loadNextPage()`:

```
if (!hasNextPage.value)
  console.warn('loadNextPage was called, but there was no next page')
resource.value = resourceState.value?.follow('next')
```

The warning is emitted when no next page exists, but execution continues:
with no state yet, the `resource` cell is re-assigned `undefined`; with a
state present, `follow('next')` is evaluated unconditionally, and ketting
raises `LinkNotFound` when the relation is absent - the exception escapes
`loadNextPage` (second component `some e`) after the warning, leaving the
cells as they were. -/
def loadNextPageRun (refreshOnStale : Bool) (rel : String) (σ : PState) :
    PState × Option String :=
  let σw : PState := if pHasNextPage σ then σ else { σ with warns := σ.warns + 1 }
  match σ.h.resourceState with
  | none =>
    let h' := resolvedStep (pagedOpts refreshOnStale) σw.h none
    ({ σw with h := h', items := σw.items ++ itemsDelta rel σw.h h' }, none)
  | some st =>
    match st.follow "next" with
    | Except.error e => (σw, some e)
    | Except.ok r =>
      let h' := resolvedStep (pagedOpts refreshOnStale) σw.h (some r)
      ({ σw with h := h', items := σw.items ++ itemsDelta rel σw.h h' }, none)

/-- Paged-collection events: the read-machine events plus `loadNextPage`
calls (an escaping `LinkNotFound` is observed by the caller; the cells keep
the pre-throw values). -/
inductive PEvent
  | hev (ev : HEvent)
  | nextPage

/-- One settled paged-collection step. -/
def pstep (refreshOnStale : Bool) (rel : String) (σ : PState) (ev : PEvent) : PState :=
  match ev with
  | PEvent.hev e => pstepEvt refreshOnStale rel σ e
  | PEvent.nextPage => (loadNextPageRun refreshOnStale rel σ).1

/-- Run a sequence of paged-collection events. -/
def pexec (refreshOnStale : Bool) (rel : String) (σ : PState) (tr : List PEvent) : PState :=
  tr.foldl (pstep refreshOnStale rel) σ

/-! ## useResolveResource (src/hooks/use-resolve-resource.ts) -/

/-- A `ResourceLike`: a live handle, a URI string, or a promise of a
handle (embedded by its eventual outcome). -/
inductive ResourceLike
  | res (r : Resource)
  | uri (u : Nat)
  | promise (p : Except String Resource)

/-- The client's synchronous URI-to-handle operation `client.go(uri)`,
which may fail with a resolution error (malformed URI, unknown scheme). -/
structure GoClient where
  go : Nat → Except String Resource

/-- The two cells produced by the resolver, at their settled values. -/
structure ResolverCells where
  resource : Option Resource
  error : Option String
deriving DecidableEq

/-- `useResolveResource` (the refactored resolver hook), by settled
outcome.  `quickResolve` calls `client.go` synchronously and outside any
try/catch, so a `go` failure escapes the hook as a synchronous exception
(`Except.error`); a successful quick resolution assigns the handle on the
next tick; a promise assigns the handle on fulfillment and routes a
rejection to the `error` cell. -/
def useResolveResource (c : GoClient) : ResourceLike → Except String ResolverCells
  | ResourceLike.res r => Except.ok { resource := some r, error := none }
  | ResourceLike.uri u =>
    match c.go u with
    | Except.ok r => Except.ok { resource := some r, error := none }
    | Except.error e => Except.error e
  | ResourceLike.promise (Except.ok r) => Except.ok { resource := some r, error := none }
  | ResourceLike.promise (Except.error e) => Except.ok { resource := none, error := some e }

/-- The legacy inline resolution inside the monolithic use-resource.ts
variant, which wraps `client.go` in try/catch and routes the failure to
the `error` cell. -/
def resolveInline (c : GoClient) : ResourceLike → ResolverCells
  | ResourceLike.res r => { resource := some r, error := none }
  | ResourceLike.uri u =>
    match c.go u with
    | Except.ok r => { resource := some r, error := none }
    | Except.error e => { resource := none, error := some e }
  | ResourceLike.promise (Except.ok r) => { resource := some r, error := none }
  | ResourceLike.promise (Except.error e) => { resource := none, error := some e }

/-! ## Argument processing of useResource (src/hooks/use-resource.ts) -/

/-- `initialState` as accepted by useResource: either a full `State`
object or a bare data payload. -/
inductive InitState
  | st (s : RState)
  | payload (d : Nat)
deriving DecidableEq

/-- `dataToState`: wrap a bare payload in a HalState with a fresh
`about:blank` uri (the random fresh uri is embedded as a reserved uri). -/
def dataToState (d : Nat) : RState :=
  { uri := 999999, data := d, links := [], shared := false }

/-- `isState(x) ? x : dataToState(x)`. -/
def toState : InitState → RState
  | InitState.st s => s
  | InitState.payload d => dataToState d

/-- The `UseResourceOptions` union: PUT mode with optional initial state,
or POST mode with a required initial state. -/
inductive UROptions
  | put (resource : ResourceLike) (initialState : Option InitState) (refreshOnStale : Bool)
  | post (resource : ResourceLike) (initialState : InitState) (refreshOnStale : Bool)

/-- The overloaded first argument of useResource: a bare resource-like
value (`isUseResourceOptions` is false: no `mode` tag), or an options
object. -/
inductive UseResourceArg
  | bare (rl : ResourceLike)
  | options (o : UROptions)

/-- The consistent options record produced for useReadResource. -/
structure ROpts where
  modeOpt : Mode
  resource : ResourceLike
  initialState : Option RState
  refreshOnStale : Bool

/-- `getUseReadResourceOptions`: a bare resource-like argument gets
`{ mode: 'PUT', initialState: undefined, resource, refreshOnStale: false }`;
an options object keeps its fields, with `initialState` normalized through
`isState` / `dataToState`. -/
def getUseReadResourceOptions : UseResourceArg → ROpts
  | UseResourceArg.bare rl =>
    { modeOpt := Mode.PUT, resource := rl, initialState := none, refreshOnStale := false }
  | UseResourceArg.options (UROptions.post r i ros) =>
    { modeOpt := Mode.POST, resource := r, initialState := some (toState i), refreshOnStale := ros }
  | UseResourceArg.options (UROptions.put r i ros) =>
    { modeOpt := Mode.PUT, resource := r, initialState := i.map toState, refreshOnStale := ros }

/-- Drop the resource reference (handled by the resolver) to obtain the
machine options. -/
def ROpts.toHOpts (o : ROpts) : HOpts :=
  { modeOpt := o.modeOpt, initialState := o.initialState, refreshOnStale := o.refreshOnStale }

/-! ## Canonical paged run (pages 0..N linked by next links) -/

def pageState (pages : Nat → List Nat) (N i : Nat) : RState :=
  { uri := i, data := 0,
    links := (pages i).map (fun m => ("item", m)) ++ (if i < N then [("next", i+1)] else []),
    shared := false }

def pagedTrace (pages : Nat → List Nat) (N : Nat) : Nat → List PEvent
  | 0 => [PEvent.hev (HEvent.resolved (some (Resource.mk 0))),
          PEvent.hev (HEvent.netOk (Resource.mk 0) (pageState pages N 0))]
  | n+1 => pagedTrace pages N n ++
      [PEvent.nextPage, PEvent.hev (HEvent.netOk (Resource.mk (n+1)) (pageState pages N (n+1)))]

def cacheUpto (pages : Nat → List Nat) (N : Nat) : Nat → Cache
  | 0 => [(0, { pageState pages N 0 with shared := true })]
  | n+1 => (n+1, { pageState pages N (n+1) with shared := true }) :: cacheUpto pages N n

def downL : Nat → List Nat
  | 0 => [0]
  | n+1 => (n+1) :: downL n

def itemsUpto (pages : Nat → List Nat) (N : Nat) : Nat → List Resource
  | 0 => (pageState pages N 0).followAll "item"
  | n+1 => itemsUpto pages N n ++ (pageState pages N (n+1)).followAll "item"

def stateAt (pages : Nat → List Nat) (N n : Nat) : PState :=
  { h := { resource := some (Resource.mk n)
           resourceState := some (pageState pages N n)
           loading := false
           error := none
           subscribed := some (Resource.mk n)
           cache := cacheUpto pages N n
           modeVal := Mode.PUT
           getLog := downL n
           refreshLog := []
           putLog := []
           postLog := [] }
    items := itemsUpto pages N n
    warns := 0 }

def midState (pages : Nat → List Nat) (N n : Nat) : PState :=
  { h := { resource := some (Resource.mk (n+1))
           resourceState := none
           loading := true
           error := none
           subscribed := some (Resource.mk (n+1))
           cache := cacheUpto pages N n
           modeVal := Mode.PUT
           getLog := downL (n+1)
           refreshLog := []
           putLog := []
           postLog := [] }
    items := itemsUpto pages N n
    warns := 0 }

def isNextPage : PEvent → Bool
  | PEvent.nextPage => true
  | _ => false

/-! ## Invariant definitions -/

def LInv (σ : HState) : Prop := σ.loading = true → σ.resourceState = none

def MInv (o : HOpts) (σ : HState) : Prop := σ.modeVal = Mode.POST → o.modeOpt = Mode.POST

def cacheHitTrace (hdl : Resource) (o : HOpts) : HState → List HEvent → Prop
  | _, [] => True
  | σ, ev :: rest =>
    (ev = HEvent.resolved (some hdl) → (cacheGet σ.cache hdl.uri).isSome = true) ∧
    cacheHitTrace hdl o (hstep o σ ev) rest

/-! ## Concrete instances used by the claim theorems -/

def c1Opts : HOpts := { modeOpt := Mode.PUT, initialState := none, refreshOnStale := false }

def c1Trace : List HEvent :=
  [HEvent.resolved (some (Resource.mk 1)), HEvent.netFail "boom",
   HEvent.resolved (some (Resource.mk 2))]

def c2Cached : RState := { uri := 1, data := 99, links := [], shared := true }

def c2Initial : RState := { uri := 1, data := 10, links := [], shared := false }

def c2Opts : HOpts := { modeOpt := Mode.PUT, initialState := some c2Initial, refreshOnStale := false }

def c2Run : HState :=
  hexec c2Opts (hinit c2Opts [(1, c2Cached)]) [HEvent.resolved (some (Resource.mk 1))]

def w2Opts : HOpts := { modeOpt := Mode.PUT, initialState := none, refreshOnStale := false }

def w2Cached : RState := { uri := 1, data := 3, links := [], shared := true }

def w2Trace : List HEvent := [HEvent.resolved (some (Resource.mk 1))]

def c3Initial : RState := { uri := 100, data := 0, links := [], shared := false }

def c3PostOpts : HOpts :=
  { modeOpt := Mode.POST, initialState := some c3Initial, refreshOnStale := false }

def c3PutOpts : HOpts := { modeOpt := Mode.PUT, initialState := none, refreshOnStale := false }

def c3NewState : RState := { uri := 2, data := 5, links := [], shared := false }

def c3Fetched : RState := { uri := 2, data := 1, links := [], shared := false }

def c3Ready : HState :=
  hexec c3PostOpts (hinit c3PostOpts []) [HEvent.resolved (some (Resource.mk 1))]

def c3Transitioned : HState :=
  hexec c3PostOpts (hinit c3PostOpts [])
    [HEvent.resolved (some (Resource.mk 1)), HEvent.opSubmit (Except.ok (Resource.mk 2)),
     HEvent.opSetResourceState c3NewState]

def c3FreshPut : HState :=
  hexec c3PutOpts (hinit c3PutOpts [])
    [HEvent.resolved (some (Resource.mk 2)), HEvent.netOk (Resource.mk 2) c3Fetched,
     HEvent.opSetResourceState c3NewState]

def c4Opts : HOpts := { modeOpt := Mode.PUT, initialState := none, refreshOnStale := false }

def c4State : HState := hexec c4Opts (hinit c4Opts []) [HEvent.resolved (some (Resource.mk 1))]

def c4NewState : RState := { uri := 1, data := 42, links := [], shared := false }

def c5Cached : RState := { uri := 1, data := 7, links := [], shared := true }

def c5Opts : HOpts := { modeOpt := Mode.PUT, initialState := none, refreshOnStale := false }

def c5Run : HState :=
  hexec c5Opts (hinit c5Opts [(1, c5Cached)]) [HEvent.resolved (some (Resource.mk 1))]

def w5State : HState :=
  { resource := some (Resource.mk 2), resourceState := none, loading := true, error := none,
    subscribed := some (Resource.mk 2), cache := [], modeVal := Mode.PUT, getLog := [2],
    refreshLog := [], putLog := [], postLog := [] }

def w5Pushed : RState := { uri := 2, data := 8, links := [], shared := true }

def c6State : RState := { uri := 1, data := 0, links := [("item", 5)], shared := false }

def c6Run : PState :=
  pexec false "item" (pinit false [])
    [PEvent.hev (HEvent.resolved (some (Resource.mk 1))),
     PEvent.hev (HEvent.netOk (Resource.mk 1) c6State)]

def c6RunNoState : PState :=
  pexec false "item" (pinit false []) [PEvent.hev (HEvent.resolved (some (Resource.mk 1)))]

def c7Client : GoClient := { go := fun _ => Except.error "resolution failed" }

def c8State : HState :=
  { resource := some (Resource.mk 3)
    resourceState := some { uri := 3, data := 1, links := [], shared := false }
    loading := false
    error := none
    subscribed := some (Resource.mk 3)
    cache := []
    modeVal := Mode.PUT
    getLog := [3]
    refreshLog := []
    putLog := []
    postLog := [] }

def c8OptsOn : HOpts := { modeOpt := Mode.PUT, initialState := none, refreshOnStale := true }

def c8OptsOff : HOpts := { modeOpt := Mode.PUT, initialState := none, refreshOnStale := false }

/-! ## Helper lemmas -/

lemma linv_setRS (σ : HState) (v : Option RState) : LInv (setRS σ v) := by
  cases v <;> simp [LInv, setRS]

lemma linv_setErr (σ : HState) (e : String) : LInv (setErr σ e) := by
  simp [LInv, setErr]

lemma linv_deliver {σ : HState} (h : LInv σ) (r : Resource) (s : RState) :
    LInv (deliver σ r s) := by
  unfold deliver
  dsimp only
  split
  · exact linv_setRS _ _
  · exact h

lemma linv_resolvedStep {σ : HState} (h : LInv σ) (o : HOpts) (rv : Option Resource) :
    LInv (resolvedStep o σ rv) := by
  unfold resolvedStep
  cases rv with
  | none => exact h
  | some r =>
    simp only
    by_cases hm : o.modeOpt = Mode.POST
    · simp only [hm, if_true, reduceIte]
      exact h
    · simp only [hm, reduceIte]
      rcases hrs : σ.resourceState with _ | st
      · simp only [hrs]
        rcases hcg : cacheGet σ.cache r.uri with _ | cs
        · simp only [hcg]
          intro _
          rfl
        · simp only [hcg]
          exact linv_setRS _ _
      · simp only [hrs]
        by_cases hu : st.uri = r.uri
        · simp only [hu, reduceIte]
          intro hl
          exact hrs ▸ h hl
        · simp only [hu, reduceIte]
          rcases hcg : cacheGet σ.cache r.uri with _ | cs
          · simp only [hcg]
            intro _
            rfl
          · simp only [hcg]
            exact linv_setRS _ _

lemma linv_staleStep {σ : HState} (h : LInv σ) (o : HOpts) (r : Resource) :
    LInv (staleStep o σ r) := by
  unfold staleStep
  split <;> exact h

lemma linv_submitRun {σ σ' : HState} (h : LInv σ) (o : HOpts) (out : Except String Resource)
    (hr : submitRun o σ out = Except.ok σ') : LInv σ' := by
  unfold submitRun at hr
  split at hr
  case h_1 st r hst hres =>
    split at hr
    · split at hr
      case h_1 newR =>
        injection hr with hr
        subst hr
        intro hl
        dsimp only at hl ⊢
        have hτ : LInv { σ with postLog := (r.uri, st) :: σ.postLog } := fun hl2 => h hl2
        exact linv_resolvedStep hτ o (some newR) hl
      case h_2 e => exact absurd hr (by simp)
    · split at hr
      · injection hr with hr
        subst hr
        intro hl
        have hl2 : σ.loading = true := hl
        exact h hl2
      · exact absurd hr (by simp)
  case h_2 => exact absurd hr (by simp)

lemma linv_setDataRun {σ σ' : HState} (h : LInv σ) (d : Nat)
    (hr : setDataRun σ d = Except.ok σ') : LInv σ' := by
  unfold setDataRun at hr
  split at hr
  case h_1 st r hst hres =>
    dsimp only at hr
    have hload : σ.loading = false := by
      by_contra hc
      have := h (by revert hc; cases σ.loading <;> simp)
      rw [hst] at this
      exact Option.noConfusion this
    split at hr
    · injection hr with hr
      subst hr
      apply linv_deliver
      intro hl
      have hl2 : σ.loading = true := hl
      rw [hl2] at hload
      exact Bool.noConfusion hload
    · injection hr with hr
      subst hr
      intro hl
      have hl2 : σ.loading = true := hl
      rw [hl2] at hload
      exact Bool.noConfusion hload
  case h_2 => exact absurd hr (by simp)

lemma linv_setResourceStateRun {σ σ' : HState} (h : LInv σ) (s : RState)
    (hr : setResourceStateRun σ s = Except.ok σ') : LInv σ' := by
  unfold setResourceStateRun at hr
  split at hr
  · split at hr
    · injection hr with hr
      subst hr
      exact linv_deliver h _ s
    · injection hr with hr
      subst hr
      exact linv_setRS _ _
  · exact absurd hr (by simp)

lemma linv_hstep {σ : HState} (h : LInv σ) (o : HOpts) (ev : HEvent) :
    LInv (hstep o σ ev) := by
  cases ev with
  | resolved rv => exact linv_resolvedStep h o rv
  | netOk r s => exact linv_deliver h r s
  | netFail e => exact linv_setErr σ e
  | updateEvt r s => exact linv_deliver h r s
  | staleEvt r => exact linv_staleStep h o r
  | opSubmit out =>
    simp only [hstep]
    cases hrun : submitRun o σ out with
    | ok σ' => exact linv_submitRun h o out hrun
    | error e => exact h
  | opSetData d =>
    simp only [hstep]
    cases hrun : setDataRun σ d with
    | ok σ' => exact linv_setDataRun h d hrun
    | error e => exact h
  | opSetResourceState s =>
    simp only [hstep]
    cases hrun : setResourceStateRun σ s with
    | ok σ' => exact linv_setResourceStateRun h s hrun
    | error e => exact h

lemma linv_hexec {σ : HState} (h : LInv σ) (o : HOpts) (tr : List HEvent) :
    LInv (hexec o σ tr) := by
  induction tr generalizing σ with
  | nil => exact h
  | cons ev rest ih => exact ih (linv_hstep h o ev)

lemma linv_hinit (o : HOpts) (c : Cache) : LInv (hinit o c) := by
  cases ho : o.initialState <;> simp [LInv, hinit, ho]

lemma resolvedStep_frame (o : HOpts) (σ : HState) (rv : Option Resource) :
    (resolvedStep o σ rv).modeVal = σ.modeVal ∧ (resolvedStep o σ rv).cache = σ.cache ∧
    (resolvedStep o σ rv).postLog = σ.postLog ∧ (resolvedStep o σ rv).putLog = σ.putLog ∧
    (resolvedStep o σ rv).refreshLog = σ.refreshLog ∧ (resolvedStep o σ rv).error = σ.error := by
  unfold resolvedStep setRS
  cases rv <;> dsimp only <;> (repeat' split) <;> simp

lemma resolvedStep_getLog (o : HOpts) (σ : HState) (rv : Option Resource) :
    (resolvedStep o σ rv).getLog = σ.getLog ∨
    ∃ r, rv = some r ∧ o.modeOpt ≠ Mode.POST ∧ cacheGet σ.cache r.uri = none ∧
      (resolvedStep o σ rv).getLog = r.uri :: σ.getLog := by
  unfold resolvedStep setRS
  cases rv with
  | none => left; rfl
  | some r =>
    dsimp only
    by_cases hm : o.modeOpt = Mode.POST
    · simp only [hm, reduceIte]
      left; trivial
    · simp only [hm, reduceIte]
      rcases hrs : σ.resourceState with _ | st
      · rcases hcg : cacheGet σ.cache r.uri with _ | cs
        · right; exact ⟨r, rfl, hm, hcg, rfl⟩
        · left; rfl
      · by_cases hu : st.uri = r.uri
        · simp only [hu, reduceIte]; left; trivial
        · simp only [hu, reduceIte]
          rcases hcg : cacheGet σ.cache r.uri with _ | cs
          · right; exact ⟨r, rfl, hm, hcg, rfl⟩
          · left; rfl

lemma deliver_frame (σ : HState) (r : Resource) (s : RState) :
    (deliver σ r s).modeVal = σ.modeVal ∧ (deliver σ r s).getLog = σ.getLog ∧
    (deliver σ r s).postLog = σ.postLog ∧ (deliver σ r s).putLog = σ.putLog ∧
    (deliver σ r s).refreshLog = σ.refreshLog ∧ (deliver σ r s).error = σ.error ∧
    (deliver σ r s).resource = σ.resource ∧ (deliver σ r s).subscribed = σ.subscribed := by
  unfold deliver setRS
  dsimp only
  split <;> simp

lemma staleStep_frame (o : HOpts) (σ : HState) (r : Resource) :
    (staleStep o σ r).modeVal = σ.modeVal ∧ (staleStep o σ r).getLog = σ.getLog ∧
    (staleStep o σ r).postLog = σ.postLog ∧ (staleStep o σ r).cache = σ.cache := by
  unfold staleStep
  split <;> simp

lemma submitRun_ok {o : HOpts} {σ σ' : HState} {out : Except String Resource}
    (hr : submitRun o σ out = Except.ok σ') :
    ∃ st r, σ.resourceState = some st ∧ σ.resource = some r ∧
      ((σ.modeVal = Mode.POST ∧ ∃ newR, out = Except.ok newR ∧
          σ' = { resolvedStep o { σ with postLog := (r.uri, st) :: σ.postLog } (some newR) with
                 modeVal := Mode.PUT }) ∨
       (σ.modeVal ≠ Mode.POST ∧ σ' = { σ with putLog := (r.uri, st) :: σ.putLog })) := by
  unfold submitRun at hr
  split at hr
  case h_1 st r hst hres =>
    refine ⟨st, r, hst, hres, ?_⟩
    split at hr
    · rename_i hmode
      split at hr
      case h_1 newR =>
        injection hr with hr
        exact Or.inl ⟨hmode, newR, rfl, hr.symm⟩
      case h_2 e => exact absurd hr (by simp)
    · rename_i hmode
      split at hr
      · injection hr with hr
        exact Or.inr ⟨hmode, hr.symm⟩
      · exact absurd hr (by simp)
  case h_2 => exact absurd hr (by simp)

lemma setDataRun_ok {σ σ' : HState} {d : Nat} (hr : setDataRun σ d = Except.ok σ') :
    ∃ st r, σ.resourceState = some st ∧ σ.resource = some r ∧
      ((σ.modeVal = Mode.PUT ∧
          σ' = deliver { σ with resourceState := some { st with data := d } } r { st with data := d }) ∨
       (σ.modeVal ≠ Mode.PUT ∧ σ' = { σ with resourceState := some { st with data := d } })) := by
  unfold setDataRun at hr
  split at hr
  case h_1 st r hst hres =>
    refine ⟨st, r, hst, hres, ?_⟩
    dsimp only at hr
    split at hr
    · rename_i hmode
      injection hr with hr
      exact Or.inl ⟨hmode, hr.symm⟩
    · rename_i hmode
      injection hr with hr
      exact Or.inr ⟨hmode, hr.symm⟩
  case h_2 => exact absurd hr (by simp)

lemma setResourceStateRun_ok {σ σ' : HState} {s : RState}
    (hr : setResourceStateRun σ s = Except.ok σ') :
    ∃ r, σ.resource = some r ∧
      ((σ.modeVal = Mode.PUT ∧ σ' = deliver σ r s) ∨
       (σ.modeVal ≠ Mode.PUT ∧ σ' = setRS σ (some s.clone))) := by
  unfold setResourceStateRun at hr
  split at hr
  case h_1 r hres =>
    refine ⟨r, hres, ?_⟩
    split at hr
    · rename_i hmode
      injection hr with hr
      exact Or.inl ⟨hmode, hr.symm⟩
    · rename_i hmode
      injection hr with hr
      exact Or.inr ⟨hmode, hr.symm⟩
  case h_2 => exact absurd hr (by simp)

lemma hstep_modeVal (o : HOpts) (σ : HState) (ev : HEvent) :
    (hstep o σ ev).modeVal = σ.modeVal ∨ (hstep o σ ev).modeVal = Mode.PUT := by
  cases ev with
  | resolved rv => exact Or.inl (resolvedStep_frame o σ rv).1
  | netOk r s => exact Or.inl (deliver_frame σ r s).1
  | netFail e => exact Or.inl rfl
  | updateEvt r s => exact Or.inl (deliver_frame σ r s).1
  | staleEvt r => exact Or.inl (staleStep_frame o σ r).1
  | opSubmit out =>
    simp only [hstep]
    cases hrun : submitRun o σ out with
    | error e => exact Or.inl rfl
    | ok σ' =>
      obtain ⟨st, r, _, _, hcase⟩ := submitRun_ok hrun
      rcases hcase with ⟨_, newR, _, hs⟩ | ⟨_, hs⟩
      · subst hs; exact Or.inr rfl
      · subst hs; exact Or.inl rfl
  | opSetData d =>
    simp only [hstep]
    cases hrun : setDataRun σ d with
    | error e => exact Or.inl rfl
    | ok σ' =>
      obtain ⟨st, r, _, _, hcase⟩ := setDataRun_ok hrun
      rcases hcase with ⟨_, hs⟩ | ⟨_, hs⟩
      · subst hs; exact Or.inl (deliver_frame _ r _).1
      · subst hs; exact Or.inl rfl
  | opSetResourceState s =>
    simp only [hstep]
    cases hrun : setResourceStateRun σ s with
    | error e => exact Or.inl rfl
    | ok σ' =>
      obtain ⟨r, _, hcase⟩ := setResourceStateRun_ok hrun
      rcases hcase with ⟨_, hs⟩ | ⟨_, hs⟩
      · subst hs; exact Or.inl (deliver_frame _ r _).1
      · subst hs; exact Or.inl rfl

lemma minv_hstep {o : HOpts} {σ : HState} (hm : MInv o σ) (ev : HEvent) :
    MInv o (hstep o σ ev) := by
  intro hpost
  rcases hstep_modeVal o σ ev with heq | heq
  · exact hm (heq ▸ hpost)
  · rw [heq] at hpost
    exact absurd hpost (by simp)

lemma resource_eq_of_uri {a b : Resource} (h : a.uri = b.uri) : a = b := by
  cases a; cases b; simpa using h

lemma noGet_step {hdl : Resource} {o : HOpts} {σ : HState} {ev : HEvent}
    (hm : MInv o σ) (hg : hdl.uri ∉ σ.getLog)
    (hcond : ev = HEvent.resolved (some hdl) → (cacheGet σ.cache hdl.uri).isSome = true) :
    hdl.uri ∉ (hstep o σ ev).getLog := by
  cases ev with
  | resolved rv =>
    rcases resolvedStep_getLog o σ rv with heq | ⟨r, hrv, hmne, hcg, heq⟩
    · simpa [hstep, heq] using hg
    · simp only [hstep, heq]
      intro hmem
      rcases List.mem_cons.mp hmem with huri | huri
      · have hre : hdl = r := resource_eq_of_uri huri
        subst hre
        have := hcond (by rw [hrv])
        rw [hcg] at this
        simp at this
      · exact hg huri
  | netOk r s => simpa [hstep, (deliver_frame σ r s).2.1] using hg
  | netFail e => simpa [hstep, setErr] using hg
  | updateEvt r s => simpa [hstep, (deliver_frame σ r s).2.1] using hg
  | staleEvt r => simpa [hstep, (staleStep_frame o σ r).2.1] using hg
  | opSubmit out =>
    simp only [hstep]
    cases hrun : submitRun o σ out with
    | error e => exact hg
    | ok σ' =>
      obtain ⟨st, r, _, _, hcase⟩ := submitRun_ok hrun
      rcases hcase with ⟨hpost, newR, _, hs⟩ | ⟨_, hs⟩
      · subst hs
        dsimp only
        rcases resolvedStep_getLog o { σ with postLog := (r.uri, st) :: σ.postLog } (some newR)
          with heq | ⟨r2, _, hmne, _, _⟩
        · simpa [heq] using hg
        · exact absurd (hm hpost) hmne
      · subst hs; exact hg
  | opSetData d =>
    simp only [hstep]
    cases hrun : setDataRun σ d with
    | error e => exact hg
    | ok σ' =>
      obtain ⟨st, r, _, _, hcase⟩ := setDataRun_ok hrun
      rcases hcase with ⟨_, hs⟩ | ⟨_, hs⟩
      · subst hs
        simpa [(deliver_frame _ r _).2.1] using hg
      · subst hs; exact hg
  | opSetResourceState s =>
    simp only [hstep]
    cases hrun : setResourceStateRun σ s with
    | error e => exact hg
    | ok σ' =>
      obtain ⟨r, _, hcase⟩ := setResourceStateRun_ok hrun
      rcases hcase with ⟨_, hs⟩ | ⟨_, hs⟩
      · subst hs
        simpa [(deliver_frame _ r _).2.1] using hg
      · subst hs
        simpa [setRS] using hg

lemma noGet_exec (hdl : Resource) (o : HOpts) :
    ∀ (tr : List HEvent) (σ : HState), cacheHitTrace hdl o σ tr → MInv o σ →
      hdl.uri ∉ σ.getLog → hdl.uri ∉ (hexec o σ tr).getLog := by
  intro tr
  induction tr with
  | nil => intro σ _ _ hg; exact hg
  | cons ev rest ih =>
    intro σ hht hm hg
    exact ih (hstep o σ ev) hht.2 (minv_hstep hm ev) (noGet_step hm hg hht.1)

lemma cacheHit_step {o : HOpts} {σ : HState} {hdl : Resource} {c : RState}
    (hmode : o.modeOpt ≠ Mode.POST) (hcache : cacheGet σ.cache hdl.uri = some c)
    (hinv : LInv σ) :
    (resolvedStep o σ (some hdl)).loading = false ∧
    (resolvedStep o σ (some hdl)).getLog = σ.getLog ∧
    ((resolvedStep o σ (some hdl)).resourceState = some c ∨
     (∃ st, σ.resourceState = some st ∧ st.uri = hdl.uri ∧
        (resolvedStep o σ (some hdl)).resourceState = some st)) := by
  unfold resolvedStep
  dsimp only
  simp only [hmode, reduceIte]
  rcases hrs : σ.resourceState with _ | st
  · simp only [hcache, setRS]
    refine ⟨by simp, by trivial, Or.inl (by trivial)⟩
  · by_cases hu : st.uri = hdl.uri
    · simp only [hu, reduceIte]
      have hload : σ.loading = false := by
        by_contra hc
        have := hinv (by revert hc; cases σ.loading <;> simp)
        rw [hrs] at this
        exact Option.noConfusion this
      exact ⟨hload, by trivial, Or.inr ⟨st, by trivial, hu, by trivial⟩⟩
    · simp only [hu, reduceIte, hcache, setRS]
      refine ⟨by simp, by trivial, Or.inl (by trivial)⟩

lemma post_submit_transition {o : HOpts} {σ : HState} {st : RState} {r newR : Resource}
    (ho : o.modeOpt = Mode.POST) (hmode : σ.modeVal = Mode.POST)
    (hst : σ.resourceState = some st) (hres : σ.resource = some r) :
    submitRun o σ (Except.ok newR) = Except.ok
      { σ with postLog := (r.uri, st) :: σ.postLog, resource := some newR,
               subscribed := none, modeVal := Mode.PUT } := by
  unfold submitRun
  simp only [hst, hres, hmode, reduceIte]
  unfold resolvedStep
  simp only [ho, reduceIte]

lemma submit_guard {o : HOpts} {σ : HState} {out : Except String Resource}
    (h : σ.resourceState = none ∨ σ.resource = none) :
    submitRun o σ out = Except.error "Too early to call submit" ∧
    hstep o σ (HEvent.opSubmit out) = σ := by
  have herr : submitRun o σ out = Except.error "Too early to call submit" := by
    unfold submitRun
    rcases h with h | h
    · rw [h]
    · rw [h]
      rcases σ.resourceState with _ | st <;> rfl
  refine ⟨herr, ?_⟩
  simp only [hstep, herr]

lemma setData_guard {σ : HState} {d : Nat} (o : HOpts)
    (h : σ.resourceState = none ∨ σ.resource = none) :
    setDataRun σ d = Except.error "Too early to call setData" ∧
    hstep o σ (HEvent.opSetData d) = σ := by
  have herr : setDataRun σ d = Except.error "Too early to call setData" := by
    unfold setDataRun
    rcases h with h | h
    · rw [h]
    · rw [h]
      rcases σ.resourceState with _ | st <;> rfl
  refine ⟨herr, ?_⟩
  simp only [hstep, herr]

lemma setResourceState_guard {σ : HState} {s : RState} (o : HOpts) (h : σ.resource = none) :
    setResourceStateRun σ s = Except.error "Too early to call setResourceState" ∧
    hstep o σ (HEvent.opSetResourceState s) = σ := by
  have herr : setResourceStateRun σ s = Except.error "Too early to call setResourceState" := by
    unfold setResourceStateRun
    rw [h]
  refine ⟨herr, ?_⟩
  simp only [hstep, herr]

lemma resolvedStep_frame2 (o : HOpts) (σ : HState) (rv : Option Resource) :
    (resolvedStep o σ rv).modeVal = σ.modeVal ∧ (resolvedStep o σ rv).postLog = σ.postLog := by
  unfold resolvedStep setRS
  cases rv <;> dsimp only <;> (repeat' split) <;> simp

lemma put_forever_step {o : HOpts} {σ : HState} (ev : HEvent) (h : σ.modeVal = Mode.PUT) :
    (hstep o σ ev).modeVal = Mode.PUT ∧ (hstep o σ ev).postLog = σ.postLog := by
  cases ev with
  | resolved rv =>
    have := resolvedStep_frame2 o σ rv
    exact ⟨this.1.trans h, this.2⟩
  | netFail e => exact ⟨h, rfl⟩
  | staleEvt r =>
    simp only [hstep]
    unfold staleStep
    split <;> exact ⟨h, rfl⟩
  | netOk r s =>
    simp only [hstep]
    unfold deliver setRS
    dsimp only
    split <;> exact ⟨h, rfl⟩
  | updateEvt r s =>
    simp only [hstep]
    unfold deliver setRS
    dsimp only
    split <;> exact ⟨h, rfl⟩
  | opSubmit out =>
    simp only [hstep]
    cases hrun : submitRun o σ out with
    | error e => exact ⟨h, rfl⟩
    | ok σ' =>
      obtain ⟨st, r, _, _, hcase⟩ := submitRun_ok hrun
      rcases hcase with ⟨hpost, _⟩ | ⟨_, hs⟩
      · rw [h] at hpost
        exact absurd hpost (by simp)
      · subst hs; exact ⟨h, rfl⟩
  | opSetData d =>
    simp only [hstep]
    cases hrun : setDataRun σ d with
    | error e => exact ⟨h, rfl⟩
    | ok σ' =>
      obtain ⟨st, r, _, _, hcase⟩ := setDataRun_ok hrun
      rcases hcase with ⟨_, hs⟩ | ⟨_, hs⟩
      · subst hs
        constructor
        · unfold deliver setRS
          dsimp only
          split <;> exact h
        · unfold deliver setRS
          dsimp only
          split <;> rfl
      · subst hs; exact ⟨h, rfl⟩
  | opSetResourceState s =>
    simp only [hstep]
    cases hrun : setResourceStateRun σ s with
    | error e => exact ⟨h, rfl⟩
    | ok σ' =>
      obtain ⟨r, _, hcase⟩ := setResourceStateRun_ok hrun
      rcases hcase with ⟨_, hs⟩ | ⟨_, hs⟩
      · subst hs
        constructor
        · unfold deliver setRS
          dsimp only
          split <;> exact h
        · unfold deliver setRS
          dsimp only
          split <;> rfl
      · subst hs
        exact ⟨h, rfl⟩

lemma put_forever_exec {o : HOpts} (tr : List HEvent) :
    ∀ {σ : HState}, σ.modeVal = Mode.PUT →
      (hexec o σ tr).modeVal = Mode.PUT ∧ (hexec o σ tr).postLog = σ.postLog := by
  induction tr with
  | nil => intro σ h; exact ⟨h, rfl⟩
  | cons ev rest ih =>
    intro σ h
    have hs := put_forever_step (o := o) ev h
    have := ih hs.1
    exact ⟨this.1, this.2.trans hs.2⟩

lemma followAll_pageState (pages : Nat → List Nat) (N i : Nat) :
    (pageState pages N i).followAll "item" = (pages i).map Resource.mk := by
  unfold RState.followAll pageState
  simp only
  rw [List.filter_append]
  have h1 : List.filter (fun l => decide (l.1 = "item"))
      ((pages i).map (fun m => (("item" : String), m))) =
      (pages i).map (fun m => (("item" : String), m)) := by
    induction pages i with
    | nil => rfl
    | cons a t ih => simp [List.filter, ih]
  have h2 : List.filter (fun l => decide (l.1 = "item"))
      (if i < N then [(("next" : String), i+1)] else []) = [] := by
    split <;> simp [List.filter]
  rw [h1, h2, List.append_nil, List.map_map]
  rfl

lemma linkHas_next_true (pages : Nat → List Nat) (N i : Nat) (h : i < N) :
    (pageState pages N i).linkHas "next" = true := by
  unfold RState.linkHas pageState
  simp only [List.any_append, h, if_pos]
  simp

lemma linkHas_next_false (pages : Nat → List Nat) (N : Nat) :
    (pageState pages N N).linkHas "next" = false := by
  unfold RState.linkHas pageState
  simp only [Nat.lt_irrefl, if_neg, List.append_nil]
  induction pages N with
  | nil => rfl
  | cons a t ih => simp_all [List.any_cons]

lemma follow_next_pageState (pages : Nat → List Nat) (N i : Nat) (h : i < N) :
    (pageState pages N i).follow "next" = Except.ok (Resource.mk (i+1)) := by
  unfold RState.follow pageState
  simp only [h, if_pos]
  have h1 : List.find? (fun l => decide (l.1 = "next"))
      ((pages i).map (fun m => (("item" : String), m)) ++ [(("next" : String), i+1)]) =
      some ("next", i+1) := by
    rw [List.find?_append]
    have : List.find? (fun l => decide (l.1 = "next"))
        ((pages i).map (fun m => (("item" : String), m))) = none := by
      induction pages i with
      | nil => rfl
      | cons a t ih => simp [List.find?, ih]
    rw [this]
    rfl
  rw [h1]

lemma cacheGet_cacheUpto_none (pages : Nat → List Nat) (N : Nat) :
    ∀ n u, n < u → cacheGet (cacheUpto pages N n) u = none := by
  intro n
  induction n with
  | zero =>
    intro u hu
    have hne : (0 : Nat) ≠ u := Nat.ne_of_lt hu
    unfold cacheUpto cacheGet
    simp [List.find?, hne]
  | succ n ih =>
    intro u hu
    unfold cacheUpto cacheGet
    have hne : (n + 1 : Nat) ≠ u := Nat.ne_of_lt hu
    simp only [List.find?, hne, decide_eq_false_iff_not, ne_eq, not_false_eq_true, decide_False]
    
    have := ih u (Nat.lt_of_succ_lt hu)
    unfold cacheGet at this
    simpa using this

lemma pexec_append (ros : Bool) (rel : String) (σ : PState) (t1 t2 : List PEvent) :
    pexec ros rel σ (t1 ++ t2) = pexec ros rel (pexec ros rel σ t1) t2 := by
  simp [pexec, List.foldl_append]

lemma clone_pageState (pages : Nat → List Nat) (N i : Nat) :
    RState.clone { pageState pages N i with shared := true } = pageState pages N i := rfl

lemma stepNext (pages : Nat → List Nat) (N n : Nat) (hlt : n < N) :
    pstep false "item" (stateAt pages N n) PEvent.nextPage = midState pages N n := by
  have hne : n ≠ n + 1 := by omega
  have hc := cacheGet_cacheUpto_none pages N n (n+1) (Nat.lt_succ_self n)
  simp only [pstep, loadNextPageRun, pHasNextPage, stateAt,
    linkHas_next_true pages N n hlt, if_pos, follow_next_pageState pages N n hlt,
    resolvedStep, pagedOpts, itemsDelta, midState, downL]
  simp [pageState, hne, hc, setRS]

lemma stepGet (pages : Nat → List Nat) (N n : Nat) :
    pstep false "item" (midState pages N n)
      (PEvent.hev (HEvent.netOk (Resource.mk (n+1)) (pageState pages N (n+1)))) =
      stateAt pages N (n+1) := by
  simp only [pstep, pstepEvt, hstep, deliver, midState, cacheSet, itemsDelta,
    clone_pageState, setRS, stateAt, cacheUpto, itemsUpto, downL]
  simp [followAll_pageState]

lemma pagedRun (pages : Nat → List Nat) (N : Nat) :
    ∀ n, n ≤ N → pexec false "item" (pinit false []) (pagedTrace pages N n) = stateAt pages N n := by
  intro n
  induction n with
  | zero =>
    intro _
    simp only [pagedTrace, pexec, List.foldl, pstep, pstepEvt, hstep, pinit, hinit, pagedOpts,
      resolvedStep, deliver, cacheSet, itemsDelta, setRS, clone_pageState, stateAt, cacheUpto,
      downL, itemsUpto]
    simp [cacheGet]
  | succ n ih =>
    intro h
    have hlt : n < N := Nat.lt_of_succ_le h
    rw [pagedTrace, pexec_append, ih (Nat.le_of_lt hlt)]
    simp only [pexec, List.foldl]
    rw [stepNext pages N n hlt, stepGet pages N n]

lemma itemsUpto_eq_bind (pages : Nat → List Nat) (N : Nat) :
    ∀ n, itemsUpto pages N n =
      (List.range (n+1)).flatMap (fun i => (pageState pages N i).followAll "item") := by
  intro n
  induction n with
  | zero => simp [itemsUpto, List.range_succ]
  | succ n ih =>
    rw [itemsUpto, ih, List.range_succ (n := n+1), List.flatMap_append]
    simp

lemma countNextPage (pages : Nat → List Nat) (N : Nat) :
    ∀ n, ((pagedTrace pages N n).countP isNextPage) = n := by
  intro n
  induction n with
  | zero => rfl
  | succ n ih =>
    rw [pagedTrace, List.countP_append, ih]
    rfl

/-! ## Claim theorems -/

/-- Claim C1, counterexample: after an uncached GET fails (recording an
error) and the resource then changes to another uncached handle, the
settled state has loading true while the previously recorded error is
still set - refuting that loading implies a null error. -/
theorem claim_C1_counterexample :
    (hexec c1Opts (hinit c1Opts []) c1Trace).loading = true ∧
    (hexec c1Opts (hinit c1Opts []) c1Trace).error = some "boom" := by decide

/-- Claim C1 (amended): for every sequence of trigger events, after the
reactive system settles, loading = true implies the resourceState cell is
undefined; a previously recorded error, however, may remain set while
loading is true. -/
theorem claim_C1 (o : HOpts) (c : Cache) (tr : List HEvent)
    (h : (hexec o (hinit o c) tr).loading = true) :
    (hexec o (hinit o c) tr).resourceState = none :=
  linv_hexec (linv_hinit o c) o tr h

/-- Witness for the C1 theorem at a concrete trace with loading true. -/
theorem claim_C1_witness :
    (hexec c1Opts (hinit c1Opts []) c1Trace).loading = true ∧
    (hexec c1Opts (hinit c1Opts []) c1Trace).resourceState = none :=
  ⟨by decide, claim_C1 c1Opts [] c1Trace (by decide)⟩

/-- Claim C2, counterexample: a resolved handle whose URI has a cache
entry at the trigger, in PUT mode, does not adopt the cached state when
the current resourceState (here the initial state) already bears the
handle URI - the existing state is kept, refuting unconditional adoption. -/
theorem claim_C2_counterexample :
    cacheGet [(1, c2Cached)] 1 = some c2Cached ∧
    c2Opts.modeOpt ≠ Mode.POST ∧
    c2Run.resourceState = some c2Initial ∧
    c2Initial ≠ c2Cached ∧
    c2Run.getLog = [] ∧
    c2Run.loading = false := by decide

/-- Claim C2 (amended): along any trace in which every resolution of a
handle finds its URI in the cache, no GET is ever issued for that handle;
and at a cache-hit trigger (mode not POST) loading settles false, no GET
is logged, and the cached state is adopted unless the current
resourceState already bears the handle URI, in which case that state is
kept. -/
theorem claim_C2 :
    (∀ (hdl : Resource) (o : HOpts) (c : Cache) (tr : List HEvent),
        cacheHitTrace hdl o (hinit o c) tr →
        hdl.uri ∉ (hexec o (hinit o c) tr).getLog) ∧
    (∀ (o : HOpts) (σ : HState) (hdl : Resource) (cs : RState),
        o.modeOpt ≠ Mode.POST → cacheGet σ.cache hdl.uri = some cs → LInv σ →
        (resolvedStep o σ (some hdl)).loading = false ∧
        (resolvedStep o σ (some hdl)).getLog = σ.getLog ∧
        ((resolvedStep o σ (some hdl)).resourceState = some cs ∨
         ∃ st, σ.resourceState = some st ∧ st.uri = hdl.uri ∧
           (resolvedStep o σ (some hdl)).resourceState = some st)) := by
  constructor
  · intro hdl o c tr hht
    exact noGet_exec hdl o tr (hinit o c) hht (fun hp => hp) (by simp [hinit])
  · intro o σ hdl cs hmode hcache hinv
    exact cacheHit_step hmode hcache hinv

/-- Witness for the C2 theorem: a handle resolved against a cache that
holds its URI issues no GET, and the cache-hit step settles non-loading. -/
theorem claim_C2_witness :
    (Resource.mk 1).uri ∉ (hexec w2Opts (hinit w2Opts [(1, w2Cached)]) w2Trace).getLog ∧
    (resolvedStep w2Opts (hinit w2Opts [(1, w2Cached)]) (some (Resource.mk 1))).loading = false := by
  constructor
  · exact claim_C2.1 (Resource.mk 1) w2Opts [(1, w2Cached)] w2Trace ⟨fun _ => by decide, trivial⟩
  · exact (claim_C2.2 w2Opts (hinit w2Opts [(1, w2Cached)]) (Resource.mk 1) w2Cached
      (by decide) (by decide) (linv_hinit w2Opts [(1, w2Cached)])).1

/-- Claim C3, counterexample: after a successful POST submit, a
setResourceState call leaves the transitioned instance resourceState
unchanged (the submit disabled no watcher, but the original POST options
keep the update subscription off), while a genuine PUT-mode instance at
the new resource adopts a clone of the pushed state - so the transitioned
instance does not behave identically to a PUT-mode instance. -/
theorem claim_C3_counterexample :
    c3Transitioned.modeVal = Mode.PUT ∧
    c3Transitioned.resource = some (Resource.mk 2) ∧
    c3FreshPut.resource = some (Resource.mk 2) ∧
    c3Transitioned.resourceState = some c3Initial ∧
    c3FreshPut.resourceState = some c3NewState ∧
    c3Transitioned.resourceState ≠ c3FreshPut.resourceState := by decide

/-- Claim C3 (amended): a successful submit in POST mode logs exactly one
POST, points the resource cell at the created handle and flips the mode
cell to PUT; from any PUT-mode state, no sequence of events or operations
ever issues another POST (the mode stays PUT and the POST log is frozen).
The transitioned instance is not fully identical to a fresh PUT-mode
instance: its update/stale subscription stays off because the watchers
consult the original POST options. -/
theorem claim_C3 :
    (∀ (o : HOpts) (σ : HState) (st : RState) (r newR : Resource),
        o.modeOpt = Mode.POST → σ.modeVal = Mode.POST →
        σ.resourceState = some st → σ.resource = some r →
        submitRun o σ (Except.ok newR) = Except.ok
          { σ with postLog := (r.uri, st) :: σ.postLog, resource := some newR,
                   subscribed := none, modeVal := Mode.PUT }) ∧
    (∀ (o : HOpts) (σ : HState) (tr : List HEvent), σ.modeVal = Mode.PUT →
        (hexec o σ tr).modeVal = Mode.PUT ∧ (hexec o σ tr).postLog = σ.postLog) := by
  constructor
  · intro o σ st r newR ho hmode hst hres
    exact post_submit_transition ho hmode hst hres
  · intro o σ tr h
    exact put_forever_exec tr h

/-- Witness for the C3 theorem: the concrete POST instance transitions on
submit, and a further submit from the transitioned state issues no POST. -/
theorem claim_C3_witness :
    submitRun c3PostOpts c3Ready (Except.ok (Resource.mk 2)) = Except.ok
      { c3Ready with postLog := ((Resource.mk 1).uri, c3Initial) :: c3Ready.postLog,
                     resource := some (Resource.mk 2), subscribed := none,
                     modeVal := Mode.PUT } ∧
    (hexec c3PostOpts c3Transitioned [HEvent.opSubmit (Except.ok (Resource.mk 9))]).modeVal
      = Mode.PUT ∧
    (hexec c3PostOpts c3Transitioned [HEvent.opSubmit (Except.ok (Resource.mk 9))]).postLog
      = c3Transitioned.postLog := by
  refine ⟨?_, ?_, ?_⟩
  · exact claim_C3.1 c3PostOpts c3Ready c3Initial (Resource.mk 1) (Resource.mk 2)
      (by decide) (by decide) (by decide) (by decide)
  · exact (claim_C3.2 c3PostOpts c3Transitioned
      [HEvent.opSubmit (Except.ok (Resource.mk 9))] (by decide)).1
  · exact (claim_C3.2 c3PostOpts c3Transitioned
      [HEvent.opSubmit (Except.ok (Resource.mk 9))] (by decide)).2

/-- Claim C4, counterexample: with a resolved resource but no current
resourceState, setResourceState does not raise the too-early error - it
succeeds and pushes the new state into the client cache, refuting both the
guard and the no-mutation clause for this call. -/
theorem claim_C4_counterexample :
    c4State.resource = some (Resource.mk 1) ∧
    c4State.resourceState = none ∧
    (setResourceStateRun c4State c4NewState).isOk = true ∧
    (hstep c4Opts c4State (HEvent.opSetResourceState c4NewState)).cache ≠ c4State.cache := by
  decide

/-- Claim C4 (amended): submit and setData raise the synchronous too-early
error exactly when the current resourceState or the resolved resource is
missing, and on that failure the instance state is unchanged;
setResourceState checks only the resolved resource - when the resource is
missing it raises the too-early error and changes nothing, but a missing
resourceState alone is not checked. -/
theorem claim_C4 :
    (∀ (o : HOpts) (σ : HState) (out : Except String Resource),
        σ.resourceState = none ∨ σ.resource = none →
        submitRun o σ out = Except.error "Too early to call submit" ∧
        hstep o σ (HEvent.opSubmit out) = σ) ∧
    (∀ (o : HOpts) (σ : HState) (d : Nat),
        σ.resourceState = none ∨ σ.resource = none →
        setDataRun σ d = Except.error "Too early to call setData" ∧
        hstep o σ (HEvent.opSetData d) = σ) ∧
    (∀ (o : HOpts) (σ : HState) (s : RState),
        σ.resource = none →
        setResourceStateRun σ s = Except.error "Too early to call setResourceState" ∧
        hstep o σ (HEvent.opSetResourceState s) = σ) := by
  refine ⟨?_, ?_, ?_⟩
  · intro o σ out h
    exact submit_guard h
  · intro o σ d h
    exact setData_guard o h
  · intro o σ s h
    exact setResourceState_guard o h

/-- Witness for the C4 theorem at the freshly initialized instance, whose
resource cell is still unset. -/
theorem claim_C4_witness :
    submitRun c4Opts (hinit c4Opts []) (Except.ok (Resource.mk 1))
      = Except.error "Too early to call submit" ∧
    setDataRun (hinit c4Opts []) 5 = Except.error "Too early to call setData" ∧
    setResourceStateRun (hinit c4Opts []) c4NewState
      = Except.error "Too early to call setResourceState" := by
  refine ⟨?_, ?_, ?_⟩
  · exact (claim_C4.1 c4Opts (hinit c4Opts []) (Except.ok (Resource.mk 1))
      (Or.inr (by decide))).1
  · exact (claim_C4.2.1 c4Opts (hinit c4Opts []) 5 (Or.inr (by decide))).1
  · exact (claim_C4.2.2 c4Opts (hinit c4Opts []) c4NewState (by decide)).1

/-- Claim C5, counterexample: a cache hit on resource change stores the
cache entry itself (the shared object), not a clone, in the resourceState
cell. -/
theorem claim_C5_counterexample :
    cacheGet [(1, c5Cached)] 1 = some c5Cached ∧
    c5Run.resourceState = some c5Cached ∧
    c5Cached.shared = true := by decide

/-- Claim C5 (amended): state adopted through an update event or a
GET/refresh completion is always stored as a clone (never the shared
cache object); state adopted through a cache hit on resource change is
the cache object itself. -/
theorem claim_C5 (σ : HState) (r : Resource) (s : RState)
    (hsub : σ.subscribed = some r) :
    (deliver σ r s).resourceState = some (RState.clone { s with shared := true }) ∧
    (RState.clone { s with shared := true }).shared = false := by
  constructor
  · unfold deliver
    dsimp only
    rw [hsub]
    simp [setRS]
  · rfl

/-- Witness for the C5 theorem: a pushed state is adopted as a clone. -/
theorem claim_C5_witness :
    (deliver w5State (Resource.mk 2) w5Pushed).resourceState
      = some (RState.clone { w5Pushed with shared := true }) ∧
    (RState.clone { w5Pushed with shared := true }).shared = false :=
  claim_C5 w5State (Resource.mk 2) w5Pushed (by decide)

/-- Claim C6 is refuted by the code as written (code bug): loadNextPage
emits the diagnostic warning when no next page exists but does not
return; with a current state lacking a next link it then evaluates
follow("next"), which raises LinkNotFound out of loadNextPage, and with
no current state it re-points the resource cell at undefined - in
neither case is the call the documented warn-only no-op. -/
theorem claim_C6_code_bug :
    (pHasNextPage c6Run = false ∧
      loadNextPageRun false "item" c6Run = ({ c6Run with warns := c6Run.warns + 1 },
        some "LinkNotFound")) ∧
    (c6RunNoState.h.resourceState = none ∧
      c6RunNoState.h.resource = some (Resource.mk 1) ∧
      (loadNextPageRun false "item" c6RunNoState).1.h.resource = none ∧
      (loadNextPageRun false "item" c6RunNoState).1.warns = c6RunNoState.warns + 1) := by
  decide

/-- Claim C7 is refuted by the code as written (code bug): in the
refactored resolver hook the synchronous client.go call sits outside any
try/catch, so a resolution failure escapes the hook as a synchronous
exception and the error cell is never set; the legacy inline variant of
use-resource.ts catches the same failure and routes it to the error
cell, which is the documented behavior. -/
theorem claim_C7_code_bug :
    useResolveResource c7Client (ResourceLike.uri 5) = Except.error "resolution failed" ∧
    resolveInline c7Client (ResourceLike.uri 5)
      = { resource := none, error := some "resolution failed" } := by
  exact ⟨rfl, rfl⟩

/-- Claim C8 (confirmed): a stale event on the currently subscribed
handle triggers exactly one refresh when refreshOnStale is set, and a
rejected refresh lands in the error cell with loading remaining false;
with refreshOnStale unset the stale event changes nothing at all. -/
theorem claim_C8 (o : HOpts) (σ : HState) (r : Resource) (e : String)
    (hsub : σ.subscribed = some r) :
    (o.refreshOnStale = true →
      hstep o σ (HEvent.staleEvt r) = { σ with refreshLog := r.uri :: σ.refreshLog }) ∧
    (σ.loading = false →
      (hstep o σ (HEvent.netFail e)).error = some e ∧
      (hstep o σ (HEvent.netFail e)).loading = false) ∧
    (o.refreshOnStale = false → hstep o σ (HEvent.staleEvt r) = σ) := by
  refine ⟨?_, ?_, ?_⟩
  · intro hros
    simp [hstep, staleStep, hsub, hros]
  · intro _
    exact ⟨rfl, rfl⟩
  · intro hros
    simp [hstep, staleStep, hros]

/-- Witness for the C8 theorem at a concrete subscribed, non-loading
instance, under both refreshOnStale settings. -/
theorem claim_C8_witness :
    hstep c8OptsOn c8State (HEvent.staleEvt (Resource.mk 3))
      = { c8State with refreshLog := (Resource.mk 3).uri :: c8State.refreshLog } ∧
    (hstep c8OptsOn c8State (HEvent.netFail "nope")).error = some "nope" ∧
    (hstep c8OptsOn c8State (HEvent.netFail "nope")).loading = false ∧
    hstep c8OptsOff c8State (HEvent.staleEvt (Resource.mk 3)) = c8State := by
  have h1 := claim_C8 c8OptsOn c8State (Resource.mk 3) "nope" (by decide)
  have h2 := claim_C8 c8OptsOff c8State (Resource.mk 3) "nope" (by decide)
  exact ⟨h1.1 rfl, (h1.2.1 (by decide)).1, (h1.2.1 (by decide)).2, h2.2.2 rfl⟩

/-- Claim C9 (confirmed): against a collection of N+1 pages chained by
next links, the canonical run that calls loadNextPage N times (each
followed by the GET completion for the new page) accumulates items equal
to the concatenation, in page order, of the member handles obtained by
following every item link on each page state, with hasNextPage false
after the final page and no diagnostic warning emitted. -/
theorem claim_C9 (pages : Nat → List Nat) (N : Nat) :
    (pexec false "item" (pinit false []) (pagedTrace pages N N)).items =
      (List.range (N+1)).flatMap (fun i => (pageState pages N i).followAll "item") ∧
    pHasNextPage (pexec false "item" (pinit false []) (pagedTrace pages N N)) = false ∧
    (pagedTrace pages N N).countP isNextPage = N ∧
    (pexec false "item" (pinit false []) (pagedTrace pages N N)).warns = 0 := by
  rw [pagedRun pages N N (Nat.le_refl N)]
  refine ⟨?_, ?_, ?_, ?_⟩
  · exact itemsUpto_eq_bind pages N N
  · simp [pHasNextPage, stateAt, linkHas_next_false]
  · exact countNextPage pages N N
  · rfl

/-- Claim C10 (confirmed): a bare resource-like argument produces exactly
the options record with mode PUT, no initial state and refreshOnStale
false - the same record an explicit PUT options object with those fields
produces - so the hook behaves identically to that explicit call for
every cache and event trace. -/
theorem claim_C10 (rl : ResourceLike) :
    getUseReadResourceOptions (UseResourceArg.bare rl) =
      { modeOpt := Mode.PUT, resource := rl, initialState := none, refreshOnStale := false } ∧
    getUseReadResourceOptions (UseResourceArg.bare rl) =
      getUseReadResourceOptions (UseResourceArg.options (UROptions.put rl none false)) ∧
    ∀ (c : Cache) (tr : List HEvent),
      hexec (getUseReadResourceOptions (UseResourceArg.bare rl)).toHOpts
        (hinit (getUseReadResourceOptions (UseResourceArg.bare rl)).toHOpts c) tr =
      hexec (getUseReadResourceOptions
          (UseResourceArg.options (UROptions.put rl none false))).toHOpts
        (hinit (getUseReadResourceOptions
          (UseResourceArg.options (UROptions.put rl none false))).toHOpts c) tr :=
  ⟨rfl, rfl, fun _ _ => rfl⟩

end VueKetting
